import Mathlib

/-!
Verification of the inventory analytics pipeline of dashboard.py.

The pipeline (dashboard.py lines 27-65) is a chain of pandas aggregations
over the transaction table loaded at line 8, followed by the dashboard
callbacks (lines 233-481).  The embedding below models:

* a CSV row as a `Row` (column identifiers such as machine ids, location
  types, product ids/names and categories are modelled as `Nat` tokens;
  dates as `Nat` day ordinals);
* the float columns (`Lead_Time_Days`, `Current_Stock_Level`) and all float
  arithmetic as exact rationals, with numpy rounding modelled by
  `roundHalfEven` (IEEE round-half-to-even, which is what `Series.round`
  uses).  On every value arising in the verified properties the rational
  computation agrees with the double computation of the source;
* `DataFrame.groupby(...)` as filtering by the group key.  pandas lists the
  group keys in sorted order; the key list here is in first-occurrence
  order, which affects only the order of the derived rows and none of the
  properties proved below (they are stated per row, via membership, or on
  single-group inputs);
* `drop_duplicates()` / `Series.unique()` (keep the first occurrence) as
  `dedupFirst`;
* the float expression `12 / avg` at line 45 when `avg == 0`: in the source
  the division yields IEEE +infinity (numpy emits a warning, not an error),
  `round` maps it to itself and `clip(lower=2, upper=10)` maps it to `10`.
  The embedding makes that branch explicit in `restockFrequencyDays`.
-/

attribute [local semireducible] Rat.add Rat.sub Rat.mul Rat.inv Rat.ofScientific

/-- Round-half-to-even on rationals: the rounding mode of `numpy.round`,
hence of every `.round()` call in dashboard.py (lines 45, 46, 52, 60, 64). -/
def roundHalfEven (q : Rat) : Int :=
  if q - (Rat.floor q : Rat) < 1/2 then Rat.floor q
  else if 1/2 < q - (Rat.floor q : Rat) then Rat.floor q + 1
  else if Rat.floor q % 2 = 0 then Rat.floor q else Rat.floor q + 1

theorem Rat.floor_eq_intFloor (q : Rat) : Rat.floor q = ⌊q⌋ := rfl

theorem roundHalfEven_intCast (n : Int) : roundHalfEven (n : Rat) = n := by
  unfold roundHalfEven
  rw [Rat.floor_eq_intFloor, Int.floor_intCast]
  norm_num

theorem roundHalfEven_nonneg {q : Rat} (h : 0 ≤ q) : 0 ≤ roundHalfEven q := by
  have hf : 0 ≤ Rat.floor q := by
    rw [Rat.floor_eq_intFloor]
    exact Int.floor_nonneg.mpr h
  unfold roundHalfEven
  split
  · exact hf
  · split
    · omega
    · split
      · exact hf
      · omega

theorem roundHalfEven_zero : roundHalfEven 0 = 0 := by
  have := roundHalfEven_intCast 0
  simpa using this

/-- First-occurrence de-duplication with an accumulator of already seen
elements: the model of pandas `drop_duplicates()` (line 55), `unique()`
(line 136), and the distinct-key lists produced by `groupby`/`nunique`. -/
def dedupFirstAux [DecidableEq α] (seen : List α) : List α → List α
  | [] => []
  | a :: l => if a ∈ seen then dedupFirstAux seen l else a :: dedupFirstAux (a :: seen) l

def dedupFirst [DecidableEq α] (l : List α) : List α := dedupFirstAux [] l

theorem mem_dedupFirstAux [DecidableEq α] {x : α} {seen l : List α} :
    x ∈ dedupFirstAux seen l ↔ x ∈ l ∧ x ∉ seen := by
  induction l generalizing seen with
  | nil => simp [dedupFirstAux]
  | cons a t ih =>
    by_cases ha : a ∈ seen
    · rw [dedupFirstAux, if_pos ha, ih]
      constructor
      · rintro ⟨hx, hns⟩
        exact ⟨List.mem_cons_of_mem a hx, hns⟩
      · rintro ⟨hmem, hns⟩
        rcases List.mem_cons.mp hmem with rfl | hx
        · exact absurd ha hns
        · exact ⟨hx, hns⟩
    · rw [dedupFirstAux, if_neg ha]
      constructor
      · intro hmem
        rcases List.mem_cons.mp hmem with rfl | hx
        · exact ⟨List.mem_cons_self x t, ha⟩
        · obtain ⟨hxt, hns⟩ := ih.mp hx
          exact ⟨List.mem_cons_of_mem a hxt,
            fun hc => hns (List.mem_cons_of_mem a hc)⟩
      · rintro ⟨hmem, hns⟩
        rcases List.mem_cons.mp hmem with rfl | hx
        · exact List.mem_cons_self x _
        · by_cases hxa : x = a
          · subst hxa
            exact List.mem_cons_self x _
          · refine List.mem_cons_of_mem a (ih.mpr ⟨hx, ?_⟩)
            intro hc
            rcases List.mem_cons.mp hc with h | h
            · exact hxa h
            · exact hns h

theorem mem_dedupFirst [DecidableEq α] {x : α} {l : List α} :
    x ∈ dedupFirst l ↔ x ∈ l := by
  simp [dedupFirst, mem_dedupFirstAux]

theorem nodup_dedupFirstAux [DecidableEq α] (seen l : List α) :
    (dedupFirstAux seen l).Nodup := by
  induction l generalizing seen with
  | nil => simp [dedupFirstAux]
  | cons a t ih =>
    by_cases ha : a ∈ seen
    · simpa [dedupFirstAux, if_pos ha] using ih seen
    · simp only [dedupFirstAux, if_neg ha, List.nodup_cons]
      refine ⟨fun hc => ?_, ih (a :: seen)⟩
      exact (mem_dedupFirstAux.mp hc).2 (List.mem_cons_self a seen)

theorem nodup_dedupFirst [DecidableEq α] (l : List α) : (dedupFirst l).Nodup :=
  nodup_dedupFirstAux [] l

theorem dedupFirstAux_congr [DecidableEq α] {s t : List α}
    (h : ∀ y, y ∈ s ↔ y ∈ t) (l : List α) :
    dedupFirstAux s l = dedupFirstAux t l := by
  induction l generalizing s t with
  | nil => rfl
  | cons a l ih =>
    by_cases ha : a ∈ s
    · rw [dedupFirstAux, if_pos ha, dedupFirstAux, if_pos ((h a).mp ha), ih h]
    · rw [dedupFirstAux, if_neg ha, dedupFirstAux, if_neg (fun hc => ha ((h a).mpr hc))]
      have h2 : ∀ y, y ∈ a :: s ↔ y ∈ a :: t := by
        intro y
        simp only [List.mem_cons, h y]
      rw [ih h2]

theorem dedupFirstAux_seen_irrelevant [DecidableEq α] {x : α} {l : List α}
    (seen : List α) (hx : x ∉ l) :
    dedupFirstAux (x :: seen) l = dedupFirstAux seen l := by
  induction l generalizing seen with
  | nil => rfl
  | cons a t ih =>
    have hxa : ¬a = x := fun h => hx (h ▸ List.mem_cons_self a t)
    have hxt : x ∉ t := fun h => hx (List.mem_cons_of_mem a h)
    by_cases ha : a ∈ seen
    · have hmem : a ∈ x :: seen := List.mem_cons_of_mem x ha
      rw [dedupFirstAux, if_pos hmem, dedupFirstAux, if_pos ha, ih seen hxt]
    · have hmem : a ∉ x :: seen := by
        simp only [List.mem_cons]
        rintro (h | h)
        · exact hxa h
        · exact ha h
      rw [dedupFirstAux, if_neg hmem, dedupFirstAux, if_neg ha]
      have swap : dedupFirstAux (a :: x :: seen) t = dedupFirstAux (x :: a :: seen) t := by
        refine dedupFirstAux_congr (fun y => ?_) t
        simp only [List.mem_cons]
        tauto
      rw [swap, ih (a :: seen) hxt]

theorem dedupFirstAux_filter [DecidableEq α] (p : α → Bool) (seen l : List α) :
    dedupFirstAux seen (l.filter p) = (dedupFirstAux seen l).filter p := by
  induction l generalizing seen with
  | nil => rfl
  | cons a t ih =>
    by_cases hp : p a = true
    · by_cases ha : a ∈ seen
      · rw [List.filter_cons_of_pos hp, dedupFirstAux, if_pos ha, dedupFirstAux, if_pos ha,
          ih seen]
      · rw [List.filter_cons_of_pos hp, dedupFirstAux, if_neg ha, dedupFirstAux, if_neg ha,
          List.filter_cons_of_pos hp, ih (a :: seen)]
    · have hanotf : a ∉ t.filter p := by
        intro hc
        exact hp (List.mem_filter.mp hc).2
      by_cases ha : a ∈ seen
      · rw [List.filter_cons_of_neg hp, dedupFirstAux, if_pos ha, ih seen]
      · rw [List.filter_cons_of_neg hp, dedupFirstAux, if_neg ha,
          List.filter_cons_of_neg hp, ← ih (a :: seen),
          dedupFirstAux_seen_irrelevant seen hanotf]

theorem dedupFirst_filter [DecidableEq α] (p : α → Bool) (l : List α) :
    dedupFirst (l.filter p) = (dedupFirst l).filter p :=
  dedupFirstAux_filter p [] l

/-- One row of the transaction CSV loaded at dashboard.py line 8.  Identifier
columns are modelled as `Nat` tokens, `Date` as a day ordinal; the numeric
columns `Lead_Time_Days` and `Current_Stock_Level` (fractional on input per
the data model) as exact rationals. -/
structure Row where
  Date : Nat
  Machine_ID : Nat
  Location_Type : Nat
  Product_ID : Nat
  Product_Name : Nat
  Category : Nat
  Units_Sold : Nat
  Lead_Time_Days : Rat
  Current_Stock_Level : Rat
deriving DecidableEq, Repr

/-- Grouping key of lines 27-28: (Machine_ID, Location_Type, Product_ID,
Product_Name). -/
def key4 (r : Row) : Nat × Nat × Nat × Nat :=
  (r.Machine_ID, r.Location_Type, r.Product_ID, r.Product_Name)

/-- Grouping key of lines 31, 41: (Machine_ID, Location_Type, Product_ID). -/
def key3 (r : Row) : Nat × Nat × Nat :=
  (r.Machine_ID, r.Location_Type, r.Product_ID)

/-- Sum of Units_Sold over a group (line 27). -/
def sumUnits (rows : List Row) : Nat :=
  (rows.map (fun r => r.Units_Sold)).sum

/-- Count of distinct dates in a group: the nunique of line 31. -/
def nuniqueDates (rows : List Row) : Nat :=
  (dedupFirst (rows.map (fun r => r.Date))).length

/-- Arithmetic mean of Lead_Time_Days over a group (line 41). -/
def meanLead (rows : List Row) : Rat :=
  ((rows.map (fun r => r.Lead_Time_Days)).sum) / (rows.length : Rat)

/-- Series.clip(lower, upper) of line 45. -/
def clip (q lo hi : Rat) : Rat := min (max q lo) hi

/-- Series.round(2) of line 38: round half to even at two decimals. -/
def round2 (q : Rat) : Rat := (roundHalfEven (q * 100) : Rat) / 100

/-- Line 45: (12 / avg).round().clip(lower=2, upper=10).  When avg = 0 the
source's float division yields +infinity (numpy only warns); rounding keeps
it and the clip maps it to 10, which the first branch makes explicit. -/
def restockFrequencyDays (avg : Rat) : Rat :=
  if avg = 0 then 10 else clip (roundHalfEven (12 / avg) : Rat) 2 10

/-- One row of sales_data after line 52: the per-key aggregates of lines
27-42 and the derived policy columns of lines 45-52. -/
structure SalesRow where
  Machine_ID : Nat
  Location_Type : Nat
  Product_ID : Nat
  Product_Name : Nat
  Total_Units_Sold : Nat
  Active_Days : Nat
  Avg_Daily_Sales : Rat
  Lead_Time_Days : Rat
  Restock_Frequency_Days : Rat
  Safety_Stock : Rat
  Recommended_Stock_Level : Rat
deriving DecidableEq, Repr

/-- Builds the sales_data row of the group with key k: Total_Units_Sold from
the 4-column group of line 27, Active_Days and the mean lead time from the
3-column groups of lines 31 and 41 (the merges of lines 35 and 42 are on
the 3-column key, whose per-key tables have one row each), then the derived
columns of lines 38 and 45-52. -/
def mkSalesRow (df : List Row) (k : Nat × Nat × Nat × Nat) : SalesRow :=
  let g4 := df.filter (fun r => key4 r = k)
  let g3 := df.filter (fun r => key3 r = (k.1, k.2.1, k.2.2.1))
  let total := sumUnits g4
  let active := nuniqueDates g3
  let avg := round2 ((total : Rat) / (active : Rat))
  let lead := meanLead g3
  let freq := restockFrequencyDays avg
  let safety := (roundHalfEven (avg * 0.2) : Rat)
  let recomm := (roundHalfEven (avg * (freq + lead) + safety) : Rat)
  ⟨k.1, k.2.1, k.2.2.1, k.2.2.2, total, active, avg, lead, freq, safety, recomm⟩

/-- The sales_data table as of line 52 (before the category merge): one row
per distinct 4-column group key.  pandas lists group keys sorted; the keys
are listed here in first-occurrence order, which changes only the row order. -/
def sales_data_base (df : List Row) : List SalesRow :=
  (dedupFirst (df.map key4)).map (mkSalesRow df)

/-- Line 55: df[['Product_ID', 'Category']].drop_duplicates(), keeping first
occurrences in order. -/
def category_lookup (df : List Row) : List (Nat × Nat) :=
  dedupFirst (df.map (fun r => (r.Product_ID, r.Category)))

/-- A sales_data row after the category merge of line 56. -/
structure SalesCatRow extends SalesRow where
  Category : Option Nat
deriving DecidableEq, Repr

/-- Line 56: merge(category_lookup, on='Product_ID', how='left').  A left
merge emits one row per matching lookup entry, in lookup order, and a single
row with a null category when the product is absent from the lookup (which
cannot happen for rows derived from df itself). -/
def attachCategories (lookup : List (Nat × Nat)) (s : SalesRow) : List SalesCatRow :=
  if (lookup.filter (fun pc => pc.1 = s.Product_ID)).isEmpty then [⟨s, none⟩]
  else (lookup.filter (fun pc => pc.1 = s.Product_ID)).map (fun pc => ⟨s, some pc.2⟩)

/-- The sales_data table as of line 56 (with categories attached). -/
def sales_data (df : List Row) : List SalesCatRow :=
  (sales_data_base df).flatMap (attachCategories (category_lookup df))

/-- The row selected by sort_values('Date') followed by groupby(...).last()
(line 59): the last row, in input order, among those with the maximal date.
pandas sorts with an unstable quicksort by default, so on tied dates the
selected row is implementation-defined; this model fixes the stable-sort
reading (last input row among the ties). -/
def latestRow : List Row → Option Row
  | [] => none
  | r :: rs =>
    match latestRow rs with
    | none => some r
    | some c => if r.Date ≤ c.Date then some c else some r

/-- Lines 59-60: the Current_Stock_Level of the latest transaction of a
(Machine_ID, Product_ID) pair, rounded and cast to int. -/
def latest_stock (df : List Row) (m p : Nat) : Option Int :=
  (latestRow (df.filter (fun r => r.Machine_ID = m ∧ r.Product_ID = p))).map
    (fun r => roundHalfEven r.Current_Stock_Level)

/-- A final_order_df row as of line 64, before the column projection of
line 65.  Current_Stock_Level and Order_Quantity are none exactly when the
left merge of line 63 found no stock observation; in the source that case
would make the astype(int) of line 64 fail, and it is proved unreachable
below. -/
structure FullOrderRow extends SalesCatRow where
  Current_Stock_Level : Option Int
  Order_Quantity : Option Int
deriving DecidableEq, Repr

/-- Lines 63-64: left-merge the latest stock level (the right table has one
row per (Machine_ID, Product_ID), so the merge is one-to-one) and compute
Order_Quantity = (Recommended - Current).clip(lower=0).round().astype(int). -/
def mkFullOrderRow (df : List Row) (s : SalesCatRow) : FullOrderRow :=
  let cur := latest_stock df s.Machine_ID s.Product_ID
  ⟨s, cur, cur.map (fun c => roundHalfEven (max (s.Recommended_Stock_Level - (c : Rat)) 0))⟩

/-- The merged order table of lines 63-64. -/
def final_order_full (df : List Row) : List FullOrderRow :=
  (sales_data df).map (mkFullOrderRow df)

/-- One row of final_order_df after the projection of line 65. -/
structure OrderRow where
  Machine_ID : Nat
  Location_Type : Nat
  Product_Name : Nat
  Category : Option Nat
  Current_Stock_Level : Option Int
  Recommended_Stock_Level : Rat
  Order_Quantity : Option Int
deriving DecidableEq, Repr

/-- Line 65: keep only the seven display columns. -/
def projectOrder (r : FullOrderRow) : OrderRow :=
  ⟨r.Machine_ID, r.Location_Type, r.Product_Name, r.Category,
    r.Current_Stock_Level, r.Recommended_Stock_Level, r.Order_Quantity⟩

/-- final_order_df as of line 65. -/
def final_order_df (df : List Row) : List OrderRow :=
  (final_order_full df).map projectOrder

/-- The dropdown selector (line 136): the value 'ALL' followed by the
distinct Location_Type values of df, in first-encounter order
(pandas Series.unique keeps encounter order). -/
inductive Selector where
  | ALL : Selector
  | machine (m : Nat) : Selector
deriving DecidableEq, Repr

/-- Line 136: the selectable dropdown values. -/
def machine_dropdown_options (df : List Row) : List Selector :=
  Selector.ALL :: (dedupFirst (df.map (fun r => r.Location_Type))).map Selector.machine

/-- Line 478: final_order_df[final_order_df['Location_Type'] == selected]. -/
def machineOrderRows (df : List Row) (m : Nat) : List OrderRow :=
  (final_order_df df).filter (fun r => r.Location_Type = m)

/-- Lines 375-376: filter df by Location_Type, then total Units_Sold per
date (the data of the per-machine line chart). -/
def machineUnitsSeries (df : List Row) (m : Nat) : List (Nat × Nat) :=
  let mdf := df.filter (fun r => r.Location_Type = m)
  (dedupFirst (mdf.map (fun r => r.Date))).map
    (fun d => (d, sumUnits (mdf.filter (fun r => r.Date = d))))

/-- Line 412: sales_data[sales_data['Location_Type'] == selected], which
feeds the stock-comparison bar chart. -/
def machineSalesRows (df : List Row) (m : Nat) : List SalesCatRow :=
  (sales_data df).filter (fun r => r.Location_Type = m)

/-- Lines 415-420: stock_data is final_order_df filtered to the machine,
and merged_data left-merges the machine's sales rows with stock_data's
(Product_Name, Current_Stock_Level) projection on Product_Name.  Each
output row carries the three columns the bar-chart loop reads:
Product_Name, Recommended_Stock_Level and the merged Current_Stock_Level
(none models the NaN a left merge puts where no product matches). -/
def merged_data (df : List Row) (m : Nat) : List (Nat × Rat × Option Int) :=
  (machineSalesRows df m).flatMap (fun s =>
    if ((machineOrderRows df m).filter
        (fun r => r.Product_Name = s.Product_Name)).isEmpty
    then [(s.Product_Name, s.Recommended_Stock_Level, none)]
    else ((machineOrderRows df m).filter
        (fun r => r.Product_Name = s.Product_Name)).map
      (fun r => (s.Product_Name, s.Recommended_Stock_Level, r.Current_Stock_Level)))

/-- One record appended to bar_data (lines 425-434): the product name, the
Value column (the merged current stock, possibly NaN, or the recommended
level), and the Type column ('Current Stock' is modelled as true,
'Recommended Stock' as false). -/
structure BarEntry where
  Product_Name : Nat
  Value : Option Rat
  isCurrent : Bool
deriving DecidableEq, Repr

/-- Lines 423-436: the loop over merged_data appends two entries per row,
the current-stock one first; pd.DataFrame(bar_data) is built from the
resulting record list. -/
def bar_data (df : List Row) (m : Nat) : List BarEntry :=
  (merged_data df m).flatMap (fun t =>
    [⟨t.1, t.2.2.map (fun c => (c : Rat)), true⟩, ⟨t.1, some t.2.1, false⟩])

/-- Outcome of the callback body: the returned data, or the ValueError
raised inside it by plotly express (line 439). -/
inductive CallbackResult (α : Type) where
  | ok (a : α) : CallbackResult α
  | valueError : CallbackResult α
deriving DecidableEq, Repr

/-- Line 439: px.bar(bar_df, x='Product_Name', y='Value', color='Type').
pd.DataFrame built from an empty record list (line 436) has no columns at
all, and plotly express raises ValueError when the x argument names a
column absent from the frame; with at least one record the named columns
exist and the call succeeds.  The figure is modelled by its data. -/
def px_bar (entries : List BarEntry) : CallbackResult (List BarEntry) :=
  if entries.isEmpty then CallbackResult.valueError else CallbackResult.ok entries

/-- The update_selected_machine_graphs callback (lines 361-481).  For the
ALL selector it builds the empty figures by hand and returns an empty
table (lines 362-372, no px call, no error).  For a machine selector it
computes the per-date units series (the line chart of lines 376-409, which
cannot raise: the grouped frame keeps its columns even with zero rows),
then builds the bar chart from bar_data - where px.bar raises ValueError
if bar_data is empty, escaping the callback - and finally the table rows
of line 478. -/
def update_selected_machine_graphs (df : List Row) :
    Selector → CallbackResult (List (Nat × Nat) × List BarEntry × List OrderRow)
  | Selector.ALL => CallbackResult.ok ([], [], [])
  | Selector.machine m =>
    match px_bar (bar_data df m) with
    | CallbackResult.valueError => CallbackResult.valueError
    | CallbackResult.ok b =>
        CallbackResult.ok (machineUnitsSeries df m, b, machineOrderRows df m)

/-- Scenario input of the spec (section 8): one machine/product with two
transactions, (day 1, units 4, stock 10) and (day 2, units 6, stock 4),
lead_time_days = 3 on both. -/
def dfScenario : List Row :=
  [⟨1, 1, 1, 1, 1, 1, 4, 3, 10⟩, ⟨2, 1, 1, 1, 1, 1, 6, 3, 4⟩]

/-- The single SalesRow the pipeline derives from dfScenario. -/
def srowScenario : SalesRow := ⟨1, 1, 1, 1, 10, 2, 5, 3, 2, 1, 26⟩

/-- The single OrderRow the pipeline derives from dfScenario. -/
def orowScenario : OrderRow := ⟨1, 1, 1, some 1, some 4, 26, some 22⟩

/-- Input with a single transaction of zero units sold: its average daily
sales is exactly 0. -/
def dfZero : List Row :=
  [⟨1, 2, 2, 2, 2, 2, 0, 1, 5⟩]

/-- The single SalesRow the pipeline derives from dfZero: zero average,
fallback restock frequency 10, zero safety stock and recommended level. -/
def srowZero : SalesRow := ⟨2, 2, 2, 2, 0, 1, 0, 1, 10, 0, 0⟩

theorem mkSalesRow_formula (df : List Row) (k : Nat × Nat × Nat × Nat) :
    (mkSalesRow df k).Restock_Frequency_Days
        = restockFrequencyDays (mkSalesRow df k).Avg_Daily_Sales
      ∧ (mkSalesRow df k).Safety_Stock
        = (roundHalfEven ((mkSalesRow df k).Avg_Daily_Sales * 0.2) : Rat)
      ∧ (mkSalesRow df k).Recommended_Stock_Level
        = (roundHalfEven ((mkSalesRow df k).Avg_Daily_Sales
            * ((mkSalesRow df k).Restock_Frequency_Days + (mkSalesRow df k).Lead_Time_Days)
            + (mkSalesRow df k).Safety_Stock) : Rat) :=
  ⟨rfl, rfl, rfl⟩

theorem mem_sales_data_base {df : List Row} {s : SalesRow}
    (h : s ∈ sales_data_base df) :
    ∃ k ∈ dedupFirst (df.map key4), s = mkSalesRow df k := by
  obtain ⟨k, hk, hs⟩ := List.mem_map.mp h
  exact ⟨k, hk, hs.symm⟩

theorem sales_data_base_formula {df : List Row} {s : SalesRow}
    (h : s ∈ sales_data_base df) :
    s.Restock_Frequency_Days = restockFrequencyDays s.Avg_Daily_Sales
      ∧ s.Safety_Stock = (roundHalfEven (s.Avg_Daily_Sales * 0.2) : Rat)
      ∧ s.Recommended_Stock_Level
        = (roundHalfEven (s.Avg_Daily_Sales
            * (s.Restock_Frequency_Days + s.Lead_Time_Days) + s.Safety_Stock) : Rat) := by
  obtain ⟨k, _, rfl⟩ := mem_sales_data_base h
  exact mkSalesRow_formula df k

theorem sales_data_base_key {df : List Row} {s : SalesRow}
    (h : s ∈ sales_data_base df) :
    ∃ r ∈ df, r.Machine_ID = s.Machine_ID ∧ r.Location_Type = s.Location_Type
      ∧ r.Product_ID = s.Product_ID ∧ r.Product_Name = s.Product_Name := by
  obtain ⟨k, hk, rfl⟩ := mem_sales_data_base h
  obtain ⟨r, hr, hkey⟩ := List.mem_map.mp (mem_dedupFirst.mp hk)
  refine ⟨r, hr, ?_⟩
  obtain ⟨k1, k2, k3, k4⟩ := k
  have hk4 : r.Machine_ID = k1 ∧ r.Location_Type = k2
      ∧ r.Product_ID = k3 ∧ r.Product_Name = k4 := by
    simpa [key4, Prod.ext_iff] using hkey
  exact hk4

theorem attachCategories_base {lookup : List (Nat × Nat)} {s : SalesRow}
    {c : SalesCatRow} (h : c ∈ attachCategories lookup s) : c.toSalesRow = s := by
  rw [attachCategories] at h
  split at h
  · rw [List.mem_singleton] at h
    rw [h]
  · obtain ⟨pc, _, hc⟩ := List.mem_map.mp h
    rw [← hc]

theorem mem_sales_data {df : List Row} {c : SalesCatRow} (h : c ∈ sales_data df) :
    c.toSalesRow ∈ sales_data_base df := by
  obtain ⟨s, hs, hc⟩ := List.mem_flatMap.mp h
  rw [attachCategories_base hc]
  exact hs

theorem latestRow_isSome {l : List Row} (h : l ≠ []) : ∃ r, latestRow l = some r := by
  cases l with
  | nil => exact absurd rfl h
  | cons a t =>
    rcases hlt : latestRow t with _ | c
    · exact ⟨a, by simp [latestRow, hlt]⟩
    · by_cases hd : a.Date ≤ c.Date
      · exact ⟨c, by simp [latestRow, hlt, hd]⟩
      · exact ⟨a, by simp [latestRow, hlt, hd]⟩

theorem latestRow_mem {l : List Row} {w : Row} (h : latestRow l = some w) : w ∈ l := by
  induction l with
  | nil => cases h
  | cons a t ih =>
    rcases hlt : latestRow t with _ | c
    · simp only [latestRow, hlt] at h
      obtain rfl := Option.some.inj h
      exact List.mem_cons_self a t
    · by_cases hd : a.Date ≤ c.Date
      · simp only [latestRow, hlt, if_pos hd] at h
        obtain rfl := Option.some.inj h
        exact List.mem_cons_of_mem a (ih hlt)
      · simp only [latestRow, hlt, if_neg hd] at h
        obtain rfl := Option.some.inj h
        exact List.mem_cons_self a t

theorem latest_stock_isSome {df : List Row} {m p : Nat}
    (h : ∃ r ∈ df, r.Machine_ID = m ∧ r.Product_ID = p) :
    ∃ c, latest_stock df m p = some c := by
  obtain ⟨r, hr, h1, h2⟩ := h
  have hmem : r ∈ df.filter (fun r => r.Machine_ID = m ∧ r.Product_ID = p) := by
    rw [List.mem_filter]
    exact ⟨hr, by simp [h1, h2]⟩
  have hne : df.filter (fun r => r.Machine_ID = m ∧ r.Product_ID = p) ≠ [] :=
    List.ne_nil_of_mem hmem
  obtain ⟨w, hw⟩ := latestRow_isSome hne
  exact ⟨roundHalfEven w.Current_Stock_Level, by rw [latest_stock, hw]; rfl⟩

theorem latest_stock_spec {df : List Row} {m p : Nat} {c : Int}
    (h : latest_stock df m p = some c) :
    ∃ r ∈ df, r.Machine_ID = m ∧ r.Product_ID = p
      ∧ c = roundHalfEven r.Current_Stock_Level := by
  rw [latest_stock] at h
  rcases hlt : latestRow (df.filter (fun r => r.Machine_ID = m ∧ r.Product_ID = p))
    with _ | w
  · rw [hlt] at h
    cases h
  · rw [hlt] at h
    have hw := latestRow_mem hlt
    rw [List.mem_filter] at hw
    obtain ⟨hwdf, hcond⟩ := hw
    have hcond2 : w.Machine_ID = m ∧ w.Product_ID = p := by
      simpa using hcond
    cases h
    exact ⟨w, hwdf, hcond2.1, hcond2.2, rfl⟩

theorem mem_final_order_full {df : List Row} {fr : FullOrderRow}
    (h : fr ∈ final_order_full df) :
    ∃ c, c ∈ sales_data df ∧ fr = mkFullOrderRow df c := by
  obtain ⟨c, hc, hfr⟩ := List.mem_map.mp h
  exact ⟨c, hc, hfr.symm⟩

theorem mem_final_order_df {df : List Row} {r : OrderRow}
    (h : r ∈ final_order_df df) :
    ∃ c, c ∈ sales_data df ∧ r = projectOrder (mkFullOrderRow df c) := by
  obtain ⟨fr, hfr, hr⟩ := List.mem_map.mp h
  obtain ⟨c, hc, hfc⟩ := mem_final_order_full hfr
  exact ⟨c, hc, by rw [← hr, hfc]⟩

theorem restockFrequencyDays_bounds (avg : Rat) :
    2 ≤ restockFrequencyDays avg ∧ restockFrequencyDays avg ≤ 10 := by
  rw [restockFrequencyDays]
  split
  · norm_num
  · rw [clip]
    refine ⟨le_min (le_max_right _ _) (by norm_num), min_le_right _ _⟩

/-- C1: on the scenario input - two transactions (day 1, units 4, stock 10)
and (day 2, units 6, stock 4) with lead_time_days 3 - the pipeline yields
active_days = 2, total_units_sold = 10, avg_daily_sales = 5,
restock_frequency_days = 2, safety_stock = 1, recommended_stock_level = 26,
current_stock_level = 4 (taken from the later date) and
order_quantity = 22. -/
theorem scenario_pipeline_values :
    sales_data_base dfScenario = [⟨1, 1, 1, 1, 10, 2, 5, 3, 2, 1, 26⟩]
      ∧ final_order_df dfScenario = [⟨1, 1, 1, some 1, some 4, 26, some 22⟩] := by
  constructor
  · decide
  · decide

/-- C3: a SalesSummary row whose Avg_Daily_Sales is 0 gets
Restock_Frequency_Days = 10.  The computation is a total function - in the
source, 12/0.0 is IEEE +infinity (numpy warns but does not raise), which
round keeps and clip(lower=2, upper=10) maps to the fallback 10. -/
theorem zero_avg_restock_fallback {df : List Row} {s : SalesRow}
    (h : s ∈ sales_data_base df) (h0 : s.Avg_Daily_Sales = 0) :
    s.Restock_Frequency_Days = 10 := by
  rw [(sales_data_base_formula h).1, h0, restockFrequencyDays, if_pos rfl]

theorem zero_avg_restock_fallback_witness :
    (srowZero ∈ sales_data_base dfZero ∧ srowZero.Avg_Daily_Sales = 0)
      ∧ srowZero.Restock_Frequency_Days = 10 :=
  have hmem : srowZero ∈ sales_data_base dfZero := by decide
  have h0 : srowZero.Avg_Daily_Sales = 0 := by decide
  ⟨⟨hmem, h0⟩, zero_avg_restock_fallback hmem h0⟩

/-- C5: every RestockPolicy row produced by the pipeline has
Restock_Frequency_Days between 2 and 10 inclusive (the clip of line 45;
the zero-average case lands on 10). -/
theorem restock_frequency_in_bounds {df : List Row} {s : SalesRow}
    (h : s ∈ sales_data_base df) :
    2 ≤ s.Restock_Frequency_Days ∧ s.Restock_Frequency_Days ≤ 10 := by
  rw [(sales_data_base_formula h).1]
  exact restockFrequencyDays_bounds s.Avg_Daily_Sales

theorem restock_frequency_in_bounds_witness :
    srowScenario ∈ sales_data_base dfScenario
      ∧ 2 ≤ srowScenario.Restock_Frequency_Days
      ∧ srowScenario.Restock_Frequency_Days ≤ 10 :=
  have hmem : srowScenario ∈ sales_data_base dfScenario := by decide
  ⟨hmem, restock_frequency_in_bounds hmem⟩

theorem mkFullOrderRow_current (df : List Row) (s : SalesCatRow) :
    (mkFullOrderRow df s).Current_Stock_Level
      = latest_stock df s.Machine_ID s.Product_ID := rfl

theorem mkFullOrderRow_order (df : List Row) (s : SalesCatRow) :
    (mkFullOrderRow df s).Order_Quantity
      = (latest_stock df s.Machine_ID s.Product_ID).map
          (fun c => roundHalfEven (max (s.Recommended_Stock_Level - (c : Rat)) 0)) := rfl

theorem sales_data_source_key {df : List Row} {c : SalesCatRow}
    (h : c ∈ sales_data df) :
    ∃ r ∈ df, r.Machine_ID = c.Machine_ID ∧ r.Location_Type = c.Location_Type
      ∧ r.Product_ID = c.Product_ID ∧ r.Product_Name = c.Product_Name :=
  sales_data_base_key (mem_sales_data h)

/-- C4: every OrderLine row has a present (non-null) current stock level and
order quantity, the order quantity is non-negative, and it is zero whenever
the current stock level is at least the recommended stock level. -/
theorem order_quantity_invariant {df : List Row} {r : OrderRow}
    (h : r ∈ final_order_df df) :
    ∃ c q, r.Current_Stock_Level = some c ∧ r.Order_Quantity = some q
      ∧ 0 ≤ q ∧ ((c : Rat) ≥ r.Recommended_Stock_Level → q = 0) := by
  obtain ⟨s, hs, rfl⟩ := mem_final_order_df h
  obtain ⟨r0, hr0, h1, _, h3, _⟩ := sales_data_source_key hs
  obtain ⟨c, hc⟩ := latest_stock_isSome ⟨r0, hr0, h1, h3⟩
  refine ⟨c, roundHalfEven (max (s.Recommended_Stock_Level - (c : Rat)) 0), ?_, ?_, ?_, ?_⟩
  · show (mkFullOrderRow df s).Current_Stock_Level = some c
    rw [mkFullOrderRow_current]
    exact hc
  · show (mkFullOrderRow df s).Order_Quantity = _
    rw [mkFullOrderRow_order, hc]
    rfl
  · exact roundHalfEven_nonneg (le_max_right _ 0)
  · intro hge
    have hmax : max (s.Recommended_Stock_Level - (c : Rat)) 0 = 0 :=
      max_eq_right (sub_nonpos.mpr hge)
    rw [hmax, roundHalfEven_zero]

theorem order_quantity_invariant_witness :
    orowScenario ∈ final_order_df dfScenario
      ∧ ∃ c q, orowScenario.Current_Stock_Level = some c
          ∧ orowScenario.Order_Quantity = some q
          ∧ 0 ≤ q ∧ ((c : Rat) ≥ orowScenario.Recommended_Stock_Level → q = 0) :=
  have hmem : orowScenario ∈ final_order_df dfScenario := by decide
  ⟨hmem, order_quantity_invariant hmem⟩

/-- C6 counterexample: given zero transaction records the aggregation does
not fail - there is no EmptyInputError anywhere in the source - it simply
produces an empty summary table (pandas groupby on an empty frame yields an
empty frame). -/
theorem empty_input_empty_summary_cex : sales_data_base [] = [] := rfl

/-- C6 amended: on zero transaction records every stage of the pipeline
produces an empty table instead of raising; the source defines no
EmptyInputError. -/
theorem empty_input_empty_tables :
    sales_data_base [] = [] ∧ sales_data [] = [] ∧ final_order_df [] = [] :=
  ⟨rfl, rfl, rfl⟩

/-- C8 counterexample: at the concrete input dfScenario with the unknown
selector 99, the callback does not return an empty result set - it raises:
the Location_Type filters are empty, so bar_data is empty (line 436 builds
pd.DataFrame([]), which has no columns) and px.bar at line 439 raises
ValueError before the OrderLine filter of line 478 is ever reached. -/
theorem unknown_machine_raises_cex :
    update_selected_machine_graphs dfScenario (Selector.machine 99)
        = CallbackResult.valueError
      ∧ update_selected_machine_graphs dfScenario (Selector.machine 99)
          ≠ CallbackResult.ok ([], [], []) := by
  constructor
  · decide
  · decide

/-- C8 amended: for every selector value that matches no known machine (and
is not ALL), the Location_Type filters of the callback do produce an empty
units series, empty merged bar rows and an empty OrderLine row set, but the
callback itself then raises ValueError when px.bar (line 439) is applied to
the column-less frame built from the empty bar_data (line 436), so the
machine view terminates with an error instead of returning that empty
result set. -/
theorem unknown_machine_raises {df : List Row} {m : Nat}
    (h : Selector.machine m ∉ machine_dropdown_options df) :
    machineUnitsSeries df m = [] ∧ machineSalesRows df m = []
      ∧ machineOrderRows df m = []
      ∧ update_selected_machine_graphs df (Selector.machine m)
          = CallbackResult.valueError := by
  have hm : m ∉ df.map (fun r => r.Location_Type) := by
    intro hc
    refine h ?_
    rw [machine_dropdown_options]
    exact List.mem_cons_of_mem _ (List.mem_map_of_mem Selector.machine (mem_dedupFirst.mpr hc))
  have hloc : ∀ r ∈ df, ¬r.Location_Type = m := by
    intro r hr hc
    exact hm (List.mem_map.mpr ⟨r, hr, hc⟩)
  have hfilter : df.filter (fun r => r.Location_Type = m) = [] :=
    List.filter_eq_nil_iff.mpr (fun r hr => by simpa using hloc r hr)
  have h1 : machineUnitsSeries df m = [] := by
    simp only [machineUnitsSeries, hfilter]
    rfl
  have h2 : machineSalesRows df m = [] := by
    refine List.filter_eq_nil_iff.mpr (fun s hs => ?_)
    obtain ⟨r0, hr0, _, hL, _, _⟩ := sales_data_source_key hs
    simpa using fun hc => hloc r0 hr0 (hL.trans hc)
  have h3 : machineOrderRows df m = [] := by
    refine List.filter_eq_nil_iff.mpr (fun r hr => ?_)
    obtain ⟨s, hs, rfl⟩ := mem_final_order_df hr
    obtain ⟨r0, hr0, _, hL, _, _⟩ := sales_data_source_key hs
    simpa using fun hc => hloc r0 hr0 (hL.trans hc)
  have hmerged : merged_data df m = [] := by
    rw [merged_data, h2]
    rfl
  have hbar : bar_data df m = [] := by
    rw [bar_data, hmerged]
    rfl
  refine ⟨h1, h2, h3, ?_⟩
  show (match px_bar (bar_data df m) with
      | CallbackResult.valueError => CallbackResult.valueError
      | CallbackResult.ok b =>
          CallbackResult.ok (machineUnitsSeries df m, b, machineOrderRows df m))
    = CallbackResult.valueError
  rw [hbar]
  rfl

theorem unknown_machine_raises_witness :
    Selector.machine 99 ∉ machine_dropdown_options dfScenario
      ∧ (machineUnitsSeries dfScenario 99 = [] ∧ machineSalesRows dfScenario 99 = []
          ∧ machineOrderRows dfScenario 99 = []
          ∧ update_selected_machine_graphs dfScenario (Selector.machine 99)
              = CallbackResult.valueError) :=
  have hmem : Selector.machine 99 ∉ machine_dropdown_options dfScenario := by decide
  ⟨hmem, unknown_machine_raises hmem⟩

/-- C7: the machine view's OrderLine rows (line 478) are exactly the rows of
the full OrderLine table whose Location_Type key equals the selector, and
every row of the full table belongs to the view of its own key, which is a
valid dropdown selector (line 136) - so the views of the valid selectors
cover the whole table. -/
theorem machine_view_rows_exact {df : List Row} (m : Nat) (r : OrderRow) :
    (r ∈ machineOrderRows df m ↔ r ∈ final_order_df df ∧ r.Location_Type = m)
      ∧ (r ∈ final_order_df df →
          Selector.machine r.Location_Type ∈ machine_dropdown_options df
            ∧ r ∈ machineOrderRows df r.Location_Type) := by
  constructor
  · rw [machineOrderRows, List.mem_filter]
    constructor
    · rintro ⟨h1, h2⟩
      exact ⟨h1, by simpa using h2⟩
    · rintro ⟨h1, h2⟩
      exact ⟨h1, by simpa using h2⟩
  · intro h
    obtain ⟨s, hs, hr⟩ := mem_final_order_df h
    obtain ⟨r0, hr0, _, hL, _, _⟩ := sales_data_source_key hs
    have hLoc : r.Location_Type ∈ df.map (fun x => x.Location_Type) := by
      refine List.mem_map.mpr ⟨r0, hr0, ?_⟩
      rw [hr]
      exact hL
    constructor
    · rw [machine_dropdown_options]
      exact List.mem_cons_of_mem _
        (List.mem_map_of_mem Selector.machine (mem_dedupFirst.mpr hLoc))
    · rw [machineOrderRows, List.mem_filter]
      exact ⟨h, by simp⟩

theorem machine_view_rows_exact_witness :
    (orowScenario ∈ machineOrderRows dfScenario 1
        ↔ orowScenario ∈ final_order_df dfScenario ∧ orowScenario.Location_Type = 1)
      ∧ (Selector.machine orowScenario.Location_Type ∈ machine_dropdown_options dfScenario
          ∧ orowScenario ∈ machineOrderRows dfScenario orowScenario.Location_Type) :=
  have hmem : orowScenario ∈ final_order_df dfScenario := by decide
  ⟨(machine_view_rows_exact 1 orowScenario).1,
    (machine_view_rows_exact 1 orowScenario).2 hmem⟩

/-- C10: a (machine, product) key whose Avg_Daily_Sales rounds to 0 gets
Safety_Stock = 0 and Recommended_Stock_Level = 0, hence Order_Quantity = 0
whatever its (non-negative) current stock level is: a zero-average product
never triggers an order. -/
theorem zero_avg_never_orders {df : List Row}
    (hstock : ∀ r ∈ df, 0 ≤ r.Current_Stock_Level)
    {fr : FullOrderRow} (hfr : fr ∈ final_order_full df)
    (h0 : fr.Avg_Daily_Sales = 0) :
    fr.Safety_Stock = 0 ∧ fr.Recommended_Stock_Level = 0
      ∧ fr.Order_Quantity = some 0 := by
  obtain ⟨s, hs, rfl⟩ := mem_final_order_full hfr
  obtain ⟨hfreq, hsaf, hrec⟩ := sales_data_base_formula (mem_sales_data hs)
  have h0s : s.toSalesRow.Avg_Daily_Sales = 0 := h0
  have hsaf0 : s.toSalesRow.Safety_Stock = 0 := by
    rw [hsaf, h0s]
    norm_num [roundHalfEven_zero]
  have hrec0 : s.toSalesRow.Recommended_Stock_Level = 0 := by
    rw [hrec, h0s, hsaf0]
    norm_num [roundHalfEven_zero]
  refine ⟨hsaf0, hrec0, ?_⟩
  obtain ⟨r0, hr0, h1, _, h3, _⟩ := sales_data_source_key hs
  obtain ⟨c, hc⟩ := latest_stock_isSome ⟨r0, hr0, h1, h3⟩
  obtain ⟨r1, hr1, _, _, hcval⟩ := latest_stock_spec hc
  have hcnn : (0 : Int) ≤ c := by
    rw [hcval]
    exact roundHalfEven_nonneg (hstock r1 hr1)
  show (mkFullOrderRow df s).Order_Quantity = some 0
  rw [mkFullOrderRow_order, hc]
  show some (roundHalfEven (max (s.Recommended_Stock_Level - (c : Rat)) 0)) = some 0
  have hmax : max (s.Recommended_Stock_Level - (c : Rat)) 0 = 0 := by
    refine max_eq_right (sub_nonpos.mpr ?_)
    show s.toSalesRow.Recommended_Stock_Level ≤ (c : Rat)
    rw [hrec0]
    exact_mod_cast hcnn
  rw [hmax, roundHalfEven_zero]

/-- The FullOrderRow the pipeline derives from dfZero. -/
def frZero : FullOrderRow := ⟨⟨srowZero, some 2⟩, some 5, some 0⟩

theorem zero_avg_never_orders_witness :
    ((∀ r ∈ dfZero, 0 ≤ r.Current_Stock_Level)
        ∧ frZero ∈ final_order_full dfZero ∧ frZero.Avg_Daily_Sales = 0)
      ∧ (frZero.Safety_Stock = 0 ∧ frZero.Recommended_Stock_Level = 0
          ∧ frZero.Order_Quantity = some 0) :=
  have hstock : ∀ r ∈ dfZero, 0 ≤ r.Current_Stock_Level := by decide
  have hmem : frZero ∈ final_order_full dfZero := by decide
  have h0 : frZero.Avg_Daily_Sales = 0 := by decide
  ⟨⟨hstock, hmem, h0⟩, zero_avg_never_orders hstock hmem h0⟩

theorem dedupFirstAux_map_inj [DecidableEq α] [DecidableEq β] {f : α → β}
    (hf : Function.Injective f) (seen l : List α) :
    dedupFirstAux (seen.map f) (l.map f) = (dedupFirstAux seen l).map f := by
  induction l generalizing seen with
  | nil => rfl
  | cons a t ih =>
    by_cases ha : a ∈ seen
    · have hfa : f a ∈ seen.map f := List.mem_map_of_mem f ha
      rw [List.map_cons, dedupFirstAux, if_pos hfa, dedupFirstAux, if_pos ha, ih]
    · have hfa : f a ∉ seen.map f := by
        intro hc
        obtain ⟨x, hx, hfx⟩ := List.mem_map.mp hc
        exact ha ((hf hfx) ▸ hx)
      rw [List.map_cons, dedupFirstAux, if_neg hfa, dedupFirstAux, if_neg ha, List.map_cons]
      have : (f a :: seen.map f) = (a :: seen).map f := rfl
      rw [this, ih]

theorem dedupFirst_map_inj [DecidableEq α] [DecidableEq β] {f : α → β}
    (hf : Function.Injective f) (l : List α) :
    dedupFirst (l.map f) = (dedupFirst l).map f :=
  dedupFirstAux_map_inj hf [] l

theorem map_flatMap_comp (l : List α) (f : α → β) (g : β → List γ) :
    (l.map f).flatMap g = l.flatMap (fun a => g (f a)) := by
  induction l with
  | nil => rfl
  | cons a t ih => rw [List.map_cons, List.flatMap_cons, List.flatMap_cons, ih]

theorem filter_flatMap (l : List α) (g : α → List β) (p : β → Bool) :
    (l.flatMap g).filter p = l.flatMap (fun a => (g a).filter p) := by
  induction l with
  | nil => rfl
  | cons a t ih => rw [List.flatMap_cons, List.flatMap_cons, List.filter_append, ih]

theorem flatMap_nil_all {l : List α} {g : α → List β} (h : ∀ x ∈ l, g x = []) :
    l.flatMap g = [] := by
  induction l with
  | nil => rfl
  | cons a t ih =>
    rw [List.flatMap_cons, h a (List.mem_cons_self a t), List.nil_append]
    exact ih (fun x hx => h x (List.mem_cons_of_mem a hx))

theorem flatMap_eq_single {l : List α} {a : α} {g : α → List β}
    (hnd : l.Nodup) (ha : a ∈ l) (hz : ∀ x ∈ l, x ≠ a → g x = []) :
    l.flatMap g = g a := by
  induction l with
  | nil => cases ha
  | cons b t ih =>
    obtain ⟨hbt, hndt⟩ := List.nodup_cons.mp hnd
    rcases List.mem_cons.mp ha with rfl | hat
    · rw [List.flatMap_cons]
      have ht : t.flatMap g = [] :=
        flatMap_nil_all (fun x hx => hz x (List.mem_cons_of_mem a hx)
          (fun hc => hbt (hc ▸ hx)))
      rw [ht, List.append_nil]
    · have hba : b ≠ a := fun hc => hbt (hc ▸ hat)
      rw [List.flatMap_cons, hz b (List.mem_cons_self b t) hba, List.nil_append]
      exact ih hndt hat (fun x hx hxa => hz x (List.mem_cons_of_mem b hx) hxa)

/-- Distinct Category values attached to a product in df, in first-encounter
order. -/
def distinctCats (df : List Row) (p : Nat) : List Nat :=
  dedupFirst ((df.filter (fun r => r.Product_ID = p)).map (fun r => r.Category))

theorem category_lookup_filter (df : List Row) (p : Nat) :
    (category_lookup df).filter (fun pc => pc.1 = p)
      = (distinctCats df p).map (fun c => (p, c)) := by
  rw [category_lookup, ← dedupFirst_filter, List.filter_map]
  have hpred : (df.filter
        ((fun pc : Nat × Nat => decide (pc.1 = p)) ∘ (fun r => (r.Product_ID, r.Category))))
      = df.filter (fun r => r.Product_ID = p) :=
    List.filter_congr (fun x _ => rfl)
  rw [hpred]
  have hmap : (df.filter (fun r => r.Product_ID = p)).map (fun r => (r.Product_ID, r.Category))
      = ((df.filter (fun r => r.Product_ID = p)).map (fun r => r.Category)).map
          (fun c => (p, c)) := by
    rw [List.map_map]
    refine List.map_congr_left (fun r hr => ?_)
    have hrp : r.Product_ID = p := by
      have := (List.mem_filter.mp hr).2
      simpa using this
    simp [hrp]
  rw [hmap, dedupFirst_map_inj (fun a b h => congrArg Prod.snd h), distinctCats]

/-- C9: when a product carries k distinct Category values in df (k at least
2), the category merge of line 56 emits one row per distinct category for
the group key holding that product, so the final OrderLine table contains k
duplicated entries for that key rather than a single row with one chosen
category. -/
theorem duplicate_category_rows {df : List Row} {m l p n : Nat}
    (hk : (m, l, p, n) ∈ dedupFirst (df.map key4))
    (h2 : 2 ≤ (distinctCats df p).length) :
    ((final_order_full df).filter
        (fun fr => fr.Machine_ID = m ∧ fr.Location_Type = l
          ∧ fr.Product_ID = p ∧ fr.Product_Name = n)).map (fun fr => fr.Category)
        = (distinctCats df p).map some
      ∧ 2 ≤ (final_order_df df).countP
          (fun r => r.Machine_ID = m ∧ r.Location_Type = l ∧ r.Product_Name = n) := by
  have hzero : ∀ x ∈ dedupFirst (df.map key4), x ≠ (m, l, p, n) →
      (attachCategories (category_lookup df) (mkSalesRow df x)).filter
        (fun c => c.Machine_ID = m ∧ c.Location_Type = l
          ∧ c.Product_ID = p ∧ c.Product_Name = n) = [] := by
    intro x hx hxne
    refine List.filter_eq_nil_iff.mpr (fun c hc => ?_)
    intro hpc2
    obtain ⟨x1, x2, x3, x4⟩ := x
    have hcb := attachCategories_base hc
    obtain ⟨e1, e2, e3, e4⟩ := of_decide_eq_true hpc2
    have f1 : c.Machine_ID = x1 := congrArg SalesRow.Machine_ID hcb
    have f2 : c.Location_Type = x2 := congrArg SalesRow.Location_Type hcb
    have f3 : c.Product_ID = x3 := congrArg SalesRow.Product_ID hcb
    have f4 : c.Product_Name = x4 := congrArg SalesRow.Product_Name hcb
    have g1 : x1 = m := f1.symm.trans e1
    have g2 : x2 = l := f2.symm.trans e2
    have g3 : x3 = p := f3.symm.trans e3
    have g4 : x4 = n := f4.symm.trans e4
    subst g1
    subst g2
    subst g3
    subst g4
    exact hxne rfl
  have hfilter_hits : (category_lookup df).filter
      (fun pc => pc.1 = (mkSalesRow df (m, l, p, n)).Product_ID)
      = (distinctCats df p).map (fun c => (p, c)) := by
    have heq : (category_lookup df).filter
        (fun pc => pc.1 = (mkSalesRow df (m, l, p, n)).Product_ID)
        = (category_lookup df).filter (fun pc => pc.1 = p) :=
      List.filter_congr (fun x _ => rfl)
    rw [heq, category_lookup_filter]
  have hne : ¬((category_lookup df).filter
      (fun pc => pc.1 = (mkSalesRow df (m, l, p, n)).Product_ID)).isEmpty = true := by
    intro hc
    rw [hfilter_hits, List.isEmpty_iff, List.map_eq_nil_iff] at hc
    rw [hc] at h2
    simp at h2
  have hfirst : ((final_order_full df).filter
      (fun fr => fr.Machine_ID = m ∧ fr.Location_Type = l
        ∧ fr.Product_ID = p ∧ fr.Product_Name = n)).map (fun fr => fr.Category)
      = (distinctCats df p).map some := by
    rw [final_order_full, List.filter_map, List.map_map]
    have hpc : (sales_data df).filter
        ((fun fr : FullOrderRow => decide (fr.Machine_ID = m ∧ fr.Location_Type = l
            ∧ fr.Product_ID = p ∧ fr.Product_Name = n)) ∘ (mkFullOrderRow df))
        = (sales_data df).filter
            (fun c => c.Machine_ID = m ∧ c.Location_Type = l
              ∧ c.Product_ID = p ∧ c.Product_Name = n) :=
      List.filter_congr (fun x _ => rfl)
    rw [hpc]
    have hmapf : ((sales_data df).filter
        (fun c => c.Machine_ID = m ∧ c.Location_Type = l
          ∧ c.Product_ID = p ∧ c.Product_Name = n)).map
          ((fun fr : FullOrderRow => fr.Category) ∘ (mkFullOrderRow df))
        = ((sales_data df).filter
          (fun c => c.Machine_ID = m ∧ c.Location_Type = l
            ∧ c.Product_ID = p ∧ c.Product_Name = n)).map (fun c => c.Category) :=
      List.map_congr_left (fun x _ => rfl)
    rw [hmapf, sales_data, sales_data_base, map_flatMap_comp, filter_flatMap,
      flatMap_eq_single (nodup_dedupFirst _) hk hzero,
      attachCategories, if_neg hne, hfilter_hits, List.map_map]
    have hself : List.filter
        (fun c => decide (c.Machine_ID = m ∧ c.Location_Type = l
          ∧ c.Product_ID = p ∧ c.Product_Name = n))
        (List.map ((fun pc : Nat × Nat =>
            (⟨mkSalesRow df (m, l, p, n), some pc.2⟩ : SalesCatRow)) ∘ fun c => (p, c))
          (distinctCats df p))
        = List.map ((fun pc : Nat × Nat =>
            (⟨mkSalesRow df (m, l, p, n), some pc.2⟩ : SalesCatRow)) ∘ fun c => (p, c))
          (distinctCats df p) := by
      refine List.filter_eq_self.mpr (fun c hc => ?_)
      obtain ⟨c0, _, rfl⟩ := List.mem_map.mp hc
      exact decide_eq_true ⟨rfl, rfl, rfl, rfl⟩
    rw [hself, List.map_map]
    exact List.map_congr_left (fun c _ => rfl)
  refine ⟨hfirst, ?_⟩
  have hlenfil : ((final_order_full df).filter
      (fun fr => fr.Machine_ID = m ∧ fr.Location_Type = l
        ∧ fr.Product_ID = p ∧ fr.Product_Name = n)).length
      = (distinctCats df p).length := by
    have hlen := congrArg List.length hfirst
    simpa using hlen
  rw [final_order_df, List.countP_map]
  have hmono : (final_order_full df).countP
        (fun fr => fr.Machine_ID = m ∧ fr.Location_Type = l
          ∧ fr.Product_ID = p ∧ fr.Product_Name = n)
      ≤ (final_order_full df).countP
        ((fun r : OrderRow => decide (r.Machine_ID = m ∧ r.Location_Type = l
          ∧ r.Product_Name = n)) ∘ projectOrder) := by
    refine List.countP_mono_left (fun x _ hx => ?_)
    have hprop := of_decide_eq_true hx
    exact decide_eq_true ⟨hprop.1, hprop.2.1, hprop.2.2.2⟩
  calc (2 : Nat) ≤ (distinctCats df p).length := h2
    _ = ((final_order_full df).filter
          (fun fr => fr.Machine_ID = m ∧ fr.Location_Type = l
            ∧ fr.Product_ID = p ∧ fr.Product_Name = n)).length := hlenfil.symm
    _ = (final_order_full df).countP
          (fun fr => fr.Machine_ID = m ∧ fr.Location_Type = l
            ∧ fr.Product_ID = p ∧ fr.Product_Name = n) :=
        (List.countP_eq_length_filter _ _).symm
    _ ≤ _ := hmono

/-- Input in which product 7 appears with two distinct categories (1 and 2)
on the same machine/location/name key. -/
def dfDupCat : List Row :=
  [⟨1, 5, 3, 7, 9, 1, 2, 1, 6⟩, ⟨2, 5, 3, 7, 9, 2, 3, 1, 5⟩]

theorem duplicate_category_rows_witness :
    ((5, 3, 7, 9) ∈ dedupFirst (dfDupCat.map key4)
        ∧ 2 ≤ (distinctCats dfDupCat 7).length)
      ∧ (((final_order_full dfDupCat).filter
            (fun fr => fr.Machine_ID = 5 ∧ fr.Location_Type = 3
              ∧ fr.Product_ID = 7 ∧ fr.Product_Name = 9)).map (fun fr => fr.Category)
            = (distinctCats dfDupCat 7).map some
          ∧ 2 ≤ (final_order_df dfDupCat).countP
              (fun r => r.Machine_ID = 5 ∧ r.Location_Type = 3 ∧ r.Product_Name = 9)) :=
  have hk : (5, 3, 7, 9) ∈ dedupFirst (dfDupCat.map key4) := by decide
  have h2 : 2 ≤ (distinctCats dfDupCat 7).length := by decide
  ⟨⟨hk, h2⟩, duplicate_category_rows hk h2⟩
